import Mathlib

/-!
# MIG agent: command validation, module supervision and result publication

A shallow embedding of `src/mig/agent/agent.go`.

* Go `string` and `[]byte` values are both `String`; the conversions between
  them in the source are identities on the underlying bytes.
* An `error` is the `String` that `%v` prints for it; `nil` is `none`.
* A send on one of `ctx.Channels.*` and a call on the child process or on the
  broker channel is an `Event`; a function yields its events in program order
  together with its named result `err`.
* `panic(v)` ends a body with `Exit.panicked`; the deferred function of the
  enclosing Go function is applied to that exit.
* Library calls whose result is not determined by the source (`encoding/json`,
  `mig/pgp`, `Action.Validate`, `time.Now`, `os/exec`, the AMQP channel) are
  the fields of `Env`.
-/

set_option linter.unusedVariables false

namespace Mig

/-- A `time.Time` instant. `Before` is strict order on instants. -/
abbrev Time := Int

/-- What `encoding/json` stores in an `interface{}`: nil (JSON null), bool,
float64, string, slice or map. A float64 is kept as its JSON literal. -/
inductive JsonValue where
  | null
  | bool (b : Bool)
  | number (literal : String)
  | str (s : String)
  | array (items : List JsonValue)
  | object (fields : List (String × JsonValue))

/-- Modelled from the spec: the severities of `mig.Log` (the `mig` package is
not part of the source tree). "a severity ∈ {Debug, Info, Err, Emerg}". -/
inductive Severity where
  | Debug
  | Info
  | Err
  | Emerg
deriving DecidableEq, Repr

/-- Modelled from the spec: `mig.Log`, "optional CommandID and ActionID
correlators, a description, and a severity". A literal `mig.Log{...}` that goes
through neither `Debug()` nor `Err()` has severity `Info`. -/
structure Log where
  CommandID : Nat := 0
  ActionID : Nat := 0
  Desc : String := ""
  Sev : Severity := Severity.Info
deriving DecidableEq, Repr

/-- Modelled from the spec: `mig.Log.Debug()` marks the record debug severity. -/
def Log.Debug (l : Log) : Log := { l with Sev := Severity.Debug }

/-- Modelled from the spec: `mig.Log.Err()` marks the record error severity. -/
def Log.Err (l : Log) : Log := { l with Sev := Severity.Err }

/-- The dynamic values the agent stores in an `interface{}` field: a `mig.Log`
record, or a value produced by `encoding/json` (`JsonValue.null` is Go nil). -/
inductive Interface where
  | log (l : Log)
  | value (v : JsonValue)

/-- Modelled from the spec: `mig.Action`, with the fields of the command
envelope `Action: {ID, Name, Order, Arguments, ScheduledDate, ExpirationDate,
PGPSignature, PGPID}`. -/
structure Action where
  ID : Nat := 0
  Name : String := ""
  Order : String := ""
  Arguments : Interface := Interface.value JsonValue.null
  ScheduledDate : Time := 0
  ExpirationDate : Time := 0
  PGPSignature : String := ""
  PGPID : String := ""

/-- Modelled from the spec: `mig.Command`, with the fields of the command
envelope `{ID, Action, Status, Results, AgentQueueLoc}`. The default values are
the Go zero value of the struct. -/
structure Command where
  ID : Nat := 0
  Action : Action := {}
  Status : String := ""
  Results : Interface := Interface.value JsonValue.null
  AgentQueueLoc : String := ""

/-- Modelled from the spec: the agent identity held by `Context`
("hostname, OS tag, derived queue location"). -/
structure Agent where
  Hostname : String := ""
  OS : String := ""
  QueueLoc : String := ""

/-- Modelled from the spec: `Context` (declared outside the source tree). Its
queues `ctx.Channels.*` and its broker channel `ctx.MQ.Chan` are represented by
the events sent to them. -/
structure Context where
  Agent : Agent := {}

/-- The keyring returned by `pgp.TransformArmoredPubKeyToKeyring`. -/
structure Keyring where
  armored : String

/-- The constant `amqp.Persistent` of the broker client library. -/
def amqp.Persistent : Nat := 2

/-- The fields of `amqp.Publishing` that `publish` sets. -/
structure Publishing where
  DeliveryMode : Nat
  Timestamp : Time
  ContentType : String
  Body : String

/-- Observable actions, in program order. -/
inductive Event where
  /-- `ctx.Channels.Log <- l` -/
  | log (l : Log)
  /-- `ctx.Channels.Results <- c` -/
  | results (c : Command)
  /-- `ctx.Channels.RunAgentCommand <- c` -/
  | runAgentCommand (c : Command)
  /-- `ctx.Channels.RunExternalCommand <- c` -/
  | runExternalCommand (c : Command)
  /-- `ctx.Channels.Terminate <- reason` -/
  | terminate (reason : String)
  /-- `cmd.Start()` on `exec.Command(argv...)` -/
  | start (argv : List String)
  /-- `go func() { waiter <- cmd.Wait() }()` (lines 258-260): the goroutine
  that waits for the child to exit and delivers its status on `waiter` -/
  | goWait
  /-- `cmd.Process.Kill()` -/
  | kill
  /-- a receive from `waiter`, yielding what `cmd.Wait()` returned -/
  | waiter (status : Option String)
  /-- `ctx.MQ.Chan.Publish(exchange, routingKey, mandatory, immediate, msg)` -/
  | publish (exchange routingKey : String) (mandatory immediate : Bool) (msg : Publishing)

/-- What the `select` of `runAgentModule` observes after the child started. -/
inductive SelectOutcome where
  /-- `time.After(MODULETIMEOUT)` fired first; `killErr` is what
  `cmd.Process.Kill()` returns and `waitErr` what `cmd.Wait()` returns in the
  waiter goroutine. The `os` package makes `Kill` fail on a child of the
  process only when that child has already finished. -/
  | timeout (killErr : Option String) (waitErr : Option String)
  /-- `waiter` delivered the result of `cmd.Wait()` first; `out` is the captured
  standard output -/
  | exited (waitErr : Option String) (out : String)

/-- The library calls the agent depends on. -/
structure Env where
  /-- the embedded armored public key -/
  PUBLICPGPKEY : String
  /-- `json.Unmarshal(msg, &cmd)`: the command as the decoder leaves it and the
  error it returns. On a value of the wrong type for a field `encoding/json`
  skips that field, finishes the decoding and returns an `UnmarshalTypeError`,
  so the command may be partly filled when the error is not nil. -/
  jsonUnmarshalCommand : String → Command → Command × Option String
  /-- `pgp.TransformArmoredPubKeyToKeyring` -/
  TransformArmoredPubKeyToKeyring : String → Except String Keyring
  /-- `Action.Validate(keyring)` -/
  Validate : Action → Keyring → Option String
  /-- `time.Now()` -/
  Now : Time
  /-- `json.Marshal(migCmd.Action.Arguments)` -/
  jsonMarshalArguments : Interface → Except String String
  /-- `os.Args[0]` -/
  osArgs0 : String
  /-- `strings.ToLower` -/
  ToLower : String → String
  /-- `cmd.Start()` on the given argv: its error, or what the `select` on the
  started child observes -/
  Start : List String → Except String SelectOutcome
  /-- `json.Unmarshal(out.Bytes(), &migCmd.Results)` -/
  jsonUnmarshalResults : String → Except String JsonValue
  /-- `json.Marshal(result)` -/
  jsonMarshalCommand : Command → Except String String
  /-- `ctx.MQ.Chan.Publish` -/
  Publish : String → String → Bool → Bool → Publishing → Option String

/-- How a function body ends: `return` with the named result `err`, or
`panic(e)`. -/
inductive Exit where
  | returned (err : Option String)
  | panicked (e : String)

/-- The events of a call and its result `err`. -/
structure Outcome where
  trace : List Event
  err : Option String

/-- The commands sent to `ctx.Channels.Results`, in order. -/
def resultsQueue (t : List Event) : List Command :=
  t.filterMap fun e => match e with
    | Event.results c => some c
    | _ => none

/-- The commands sent to `ctx.Channels.RunAgentCommand`, in order. -/
def runAgentCommandQueue (t : List Event) : List Command :=
  t.filterMap fun e => match e with
    | Event.runAgentCommand c => some c
    | _ => none

/-- The commands sent to `ctx.Channels.RunExternalCommand`, in order. -/
def runExternalCommandQueue (t : List Event) : List Command :=
  t.filterMap fun e => match e with
    | Event.runExternalCommand c => some c
    | _ => none

/-- The reasons sent to `ctx.Channels.Terminate`, in order. -/
def terminateQueue (t : List Event) : List String :=
  t.filterMap fun e => match e with
    | Event.terminate r => some r
    | _ => none

/-- The calls made on the broker channel, in order. -/
def publishCalls (t : List Event) : List (String × String × Bool × Bool × Publishing) :=
  t.filterMap fun e => match e with
    | Event.publish x k m i p => some (x, k, m, i, p)
    | _ => none

/-- The variable `cmd` of `parseCommands` before decoding (lines 164-165):
the zero value of `mig.Command`, with `ID` set to 0. -/
def zeroCommand : Command := { ({} : Command) with ID := 0 }

/-- Lines 164-165 and 180-223 of `parseCommands`: the events sent, the variable
`cmd` as the deferred function finds it, and how the body ends. -/
def parseCommandsBody (env : Env) (ctx : Context) (msg : String) : List Event × Command × Exit :=
  let cmd0 : Command := zeroCommand
  match env.jsonUnmarshalCommand msg cmd0 with
  | (cmd, some e) => ([], cmd, Exit.panicked e)
  | (cmd, none) =>
    match env.TransformArmoredPubKeyToKeyring env.PUBLICPGPKEY with
    | Except.error e => ([], cmd, Exit.panicked e)
    | Except.ok keyring =>
      match env.Validate cmd.Action keyring with
      | some e =>
        let desc := "action validation failed: " ++ e
        ([Event.log (Log.Err { CommandID := cmd.ID, ActionID := cmd.Action.ID, Desc := desc })],
          cmd, Exit.panicked desc)
      | none =>
        if env.Now < cmd.Action.ScheduledDate then
          ([Event.log (Log.Err { CommandID := cmd.ID, ActionID := cmd.Action.ID, Desc := "action is scheduled for later" })],
            cmd, Exit.panicked "ScheduledDateInFuture")
        else if cmd.Action.Order = "filechecker" then
          ([Event.runAgentCommand cmd,
            Event.log { CommandID := cmd.ID, ActionID := cmd.Action.ID, Desc := "Command queued for execution" }],
            cmd, Exit.returned none)
        else if cmd.Action.Order = "shell" then
          ([Event.runExternalCommand cmd,
            Event.log { CommandID := cmd.ID, ActionID := cmd.Action.ID, Desc := "Command queued for execution" }],
            cmd, Exit.returned none)
        else if cmd.Action.Order = "terminate" then
          ([Event.terminate "Terminate order received from scheduler"],
            cmd, Exit.returned none)
        else
          ([Event.log { CommandID := cmd.ID, ActionID := cmd.Action.ID, Desc := "order '" ++ cmd.Action.Order ++ "' is invalid" }],
            cmd, Exit.panicked "OrderNotUnderstood")

/-- The function `parseCommands`: its body followed by its deferred function
(lines 166-178), which on a panic sets `err` and, when `cmd.ID > 0`, sends the
command back with status "failed". -/
def parseCommands (env : Env) (ctx : Context) (msg : String) : Outcome :=
  match parseCommandsBody env ctx msg with
  | (evs, cmd, Exit.returned err) =>
    { trace := evs ++ [Event.log (Log.Debug { CommandID := cmd.ID, ActionID := cmd.Action.ID, Desc := "leaving parseCommands()" })],
      err := err }
  | (evs, cmd, Exit.panicked e) =>
    let err := "parseCommands() -> " ++ e
    if cmd.ID > 0 then
      let cmd1 : Command := { cmd with
        Results := Interface.log (Log.Err { CommandID := cmd.ID, ActionID := cmd.Action.ID, Desc := err }) }
      let cmd2 : Command := { cmd1 with Status := "failed" }
      { trace := evs ++ [Event.results cmd2,
          Event.log (Log.Debug { CommandID := cmd2.ID, ActionID := cmd2.Action.ID, Desc := "leaving parseCommands()" })],
        err := some err }
    else
      { trace := evs ++ [Event.log (Log.Debug { CommandID := cmd.ID, ActionID := cmd.Action.ID, Desc := "leaving parseCommands()" })],
        err := some err }

/-- Lines 236-301 of `runAgentModule`: the events and how the body ends. -/
def runAgentModuleBody (env : Env) (ctx : Context) (migCmd : Command) : List Event × Exit :=
  let entry := Event.log (Log.Debug { CommandID := migCmd.ID, ActionID := migCmd.Action.ID, Desc := "executing command '" ++ migCmd.Action.Order ++ "'" })
  match env.jsonMarshalArguments migCmd.Action.Arguments with
  | Except.error e => ([entry], Exit.panicked e)
  | Except.ok tmpargs =>
    let cmdArgs := tmpargs
    let argv := [env.osArgs0, "-m", env.ToLower migCmd.Action.Order, cmdArgs]
    match env.Start argv with
    | Except.error e => ([entry, Event.start argv], Exit.panicked e)
    | Except.ok (SelectOutcome.timeout killErr waitErr) =>
      let migCmd1 : Command := { migCmd with Status := "timeout" }
      let sent := [entry, Event.start argv, Event.goWait,
        Event.log (Log.Err { ActionID := migCmd.Action.ID, CommandID := migCmd.ID, Desc := "command timed out. Killing it." }),
        Event.results migCmd1,
        Event.kill]
      match killErr with
      | some e => (sent, Exit.panicked e)
      | none => (sent ++ [Event.waiter waitErr], Exit.returned none)
    | Except.ok (SelectOutcome.exited (some e) out) =>
      let migCmd1 : Command := { migCmd with Status := "failed" }
      ([entry, Event.start argv, Event.goWait, Event.waiter (some e),
        Event.log (Log.Err { ActionID := migCmd.Action.ID, CommandID := migCmd.ID, Desc := "command failed." }),
        Event.results migCmd1],
        Exit.panicked e)
    | Except.ok (SelectOutcome.exited none out) =>
      let sent := [entry, Event.start argv, Event.goWait, Event.waiter none,
        Event.log { ActionID := migCmd.Action.ID, CommandID := migCmd.ID, Desc := "command succeeded." }]
      match env.jsonUnmarshalResults out with
      | Except.error e => (sent, Exit.panicked e)
      | Except.ok v =>
        let migCmd1 : Command := { migCmd with Results := Interface.value v }
        let migCmd2 : Command := { migCmd1 with Status := "succeeded" }
        (sent ++ [Event.results migCmd2], Exit.returned none)

/-- The function `runAgentModule`: its body followed by its deferred function
(lines 229-234), which on a panic only sets `err`. -/
def runAgentModule (env : Env) (ctx : Context) (migCmd : Command) : Outcome :=
  let leaving := Event.log (Log.Debug { CommandID := migCmd.ID, ActionID := migCmd.Action.ID, Desc := "leaving runCommand()" })
  match runAgentModuleBody env ctx migCmd with
  | (evs, Exit.returned err) => { trace := evs ++ [leaving], err := err }
  | (evs, Exit.panicked e) => { trace := evs ++ [leaving], err := some ("runCommand() -> " ++ e) }

/-- The function `publish` (lines 357-381). -/
def publish (env : Env) (ctx : Context) (exchange routingKey : String) (body : String) : Outcome :=
  let leaving := Event.log (Log.Debug { Desc := "leaving publish()" })
  let msg : Publishing :=
    { DeliveryMode := amqp.Persistent, Timestamp := env.Now, ContentType := "text/plain", Body := body }
  let call := Event.publish exchange routingKey true false msg
  match env.Publish exchange routingKey true false msg with
  | some e => { trace := [call, leaving], err := some ("publish() -> " ++ e) }
  | none =>
    let desc := "Message published to exchange '" ++ exchange ++ "' with routing key '"
      ++ routingKey ++ "' and body '" ++ msg.Body ++ "'"
    { trace := [call, Event.log (Log.Debug { Desc := desc }), leaving], err := none }

/-- The function `sendResults` (lines 305-327). -/
def sendResults (env : Env) (ctx : Context) (result : Command) : Outcome :=
  let leaving := Event.log (Log.Debug { CommandID := result.ID, ActionID := result.Action.ID, Desc := "leaving sendResults()" })
  let entry := Event.log { CommandID := result.ID, ActionID := result.Action.ID, Desc := "sending command results" }
  let result1 : Command := { result with AgentQueueLoc := ctx.Agent.QueueLoc }
  match env.jsonMarshalCommand result1 with
  | Except.error e => { trace := [entry, leaving], err := some ("sendResults() -> " ++ e) }
  | Except.ok body =>
    let routingKey := "mig.sched." ++ ctx.Agent.QueueLoc
    let sent := publish env ctx "mig" routingKey body
    match sent.err with
    | some e => { trace := entry :: sent.trace ++ [leaving], err := some ("sendResults() -> " ++ e) }
    | none => { trace := entry :: sent.trace ++ [leaving], err := none }

/-- One turn of the validator goroutine of `main` (lines 97-103). -/
def validatorStep (env : Env) (ctx : Context) (msg : String) : List Event :=
  let r := parseCommands env ctx msg
  match r.err with
  | some e => r.trace ++ [Event.log (Log.Err { Desc := e })]
  | none => r.trace

/-- One turn of the module goroutine of `main` (lines 108-114). -/
def supervisorStep (env : Env) (ctx : Context) (cmd : Command) : List Event :=
  let r := runAgentModule env ctx cmd
  match r.err with
  | some e => r.trace ++ [Event.log (Log.Err { CommandID := cmd.ID, ActionID := cmd.Action.ID, Desc := e })]
  | none => r.trace

/-- A message taken through the validator goroutine and, for every command it
sent to `RunAgentCommand`, through the module goroutine. -/
def processMessage (env : Env) (ctx : Context) (msg : String) : List Event :=
  let t := validatorStep env ctx msg
  t ++ (runAgentCommandQueue t).flatMap (supervisorStep env ctx)

/-! ## Concrete environments -/

/-- A command envelope for command 42 of action 7 with the given order. -/
def sampleMessage (order : String) : String :=
  "\x7b\"ID\":42,\"Action\":\x7b\"ID\":7,\"Order\":\"" ++ order ++ "\"\x7d\x7d"

/-- An envelope whose `Status` is a number: `encoding/json` stores `ID`, skips
`Status` and returns an `UnmarshalTypeError`. -/
def mistypedMessage : String := "\x7b\"ID\":5,\"Status\":1\x7d"

/-- A decoder defined on the sample envelopes, behaving there as
`encoding/json` does; any other text is a syntax error and leaves the target
untouched. -/
def sampleUnmarshalCommand (msg : String) (cmd : Command) : Command × Option String :=
  match ["filechecker", "shell", "terminate", "noop"].find? (fun o => msg = sampleMessage o) with
  | some o => ({ cmd with ID := 42, Action := { cmd.Action with ID := 7, Order := o } }, none)
  | none =>
    if msg = mistypedMessage then
      ({ cmd with ID := 5 }, some "json: cannot unmarshal number into Go value of type string")
    else (cmd, some "unexpected end of JSON input")

/-- An environment with the given verdict of `Action.Validate`, clock and
child behaviour. An empty JSON object is the only output that decodes. -/
def sampleEnv (verdict : Option String) (now : Time) (child : Except String SelectOutcome) : Env where
  PUBLICPGPKEY := "-----BEGIN PGP PUBLIC KEY BLOCK-----"
  jsonUnmarshalCommand := sampleUnmarshalCommand
  TransformArmoredPubKeyToKeyring := fun k => Except.ok { armored := k }
  Validate := fun _ _ => verdict
  Now := now
  jsonMarshalArguments := fun a =>
    match a with
    | Interface.value JsonValue.null => Except.ok "null"
    | _ => Except.error "json: unsupported type"
  osArgs0 := "/sbin/mig-agent"
  ToLower := String.toLower
  Start := fun _ => child
  jsonUnmarshalResults := fun out =>
    if out = "\x7b\x7d" then Except.ok (JsonValue.object [])
    else Except.error "unexpected end of JSON input"
  jsonMarshalCommand := fun c =>
    Except.ok ("\x7b\"Status\":\"" ++ c.Status ++ "\",\"AgentQueueLoc\":\"" ++ c.AgentQueueLoc ++ "\"\x7d")
  Publish := fun _ _ _ _ _ => none

/-- The command the sample decoder yields for the given order. -/
def sampleCommand (order : String) : Command :=
  { zeroCommand with ID := 42, Action := { zeroCommand.Action with ID := 7, Order := order } }

/-- A context whose agent is bound to queue location `linux.host1`. -/
def sampleContext : Context := { Agent := { Hostname := "host1", OS := "linux", QueueLoc := "linux.host1" } }

/-! ## Validator and dispatcher: `parseCommands` -/

/-- C1: a message that decodes to a command with `ID > 0` and is rejected
(validation error, scheduled date after the current time, or an order other
than "filechecker", "shell", "terminate") makes `parseCommands` send exactly
one command to `Results`: the decoded command with `Status = "failed"` and
`Results` an error-severity log record holding the command id, the action id
and the description of the rejection. Nothing is sent to `RunAgentCommand`,
`RunExternalCommand` or `Terminate`, and the returned error is not nil. -/
theorem parseCommands_rejection_reported (env : Env) (ctx : Context) (msg : String)
    (cmd : Command) (keyring : Keyring)
    (hdec : env.jsonUnmarshalCommand msg zeroCommand = (cmd, none))
    (hid : cmd.ID > 0)
    (hkey : env.TransformArmoredPubKeyToKeyring env.PUBLICPGPKEY = Except.ok keyring)
    (hrej : (∃ e, env.Validate cmd.Action keyring = some e)
      ∨ env.Now < cmd.Action.ScheduledDate
      ∨ (cmd.Action.Order ≠ "filechecker" ∧ cmd.Action.Order ≠ "shell"
          ∧ cmd.Action.Order ≠ "terminate")) :
    ∃ desc : String,
      (parseCommands env ctx msg).err = some desc
      ∧ resultsQueue (parseCommands env ctx msg).trace =
          [{ cmd with
              Status := "failed",
              Results := Interface.log
                { CommandID := cmd.ID, ActionID := cmd.Action.ID, Desc := desc, Sev := Severity.Err } }]
      ∧ runAgentCommandQueue (parseCommands env ctx msg).trace = []
      ∧ runExternalCommandQueue (parseCommands env ctx msg).trace = []
      ∧ terminateQueue (parseCommands env ctx msg).trace = []
      ∧ (∀ e, env.Validate cmd.Action keyring = some e →
            desc = "parseCommands() -> action validation failed: " ++ e)
      ∧ (env.Validate cmd.Action keyring = none → env.Now < cmd.Action.ScheduledDate →
            desc = "parseCommands() -> ScheduledDateInFuture")
      ∧ (env.Validate cmd.Action keyring = none → ¬ env.Now < cmd.Action.ScheduledDate →
            desc = "parseCommands() -> OrderNotUnderstood") := by
  cases hv : env.Validate cmd.Action keyring with
  | some e =>
    refine ⟨"parseCommands() -> action validation failed: " ++ e, ?_⟩
    simp [parseCommands, parseCommandsBody, hdec, hkey, hv, hid, resultsQueue,
      runAgentCommandQueue, runExternalCommandQueue, terminateQueue, Log.Err, Log.Debug]
    rw [← String.append_assoc]
    rfl
  | none =>
    by_cases hs : env.Now < cmd.Action.ScheduledDate
    · refine ⟨"parseCommands() -> ScheduledDateInFuture", ?_⟩
      simp [parseCommands, parseCommandsBody, hdec, hkey, hv, hs, hid, resultsQueue,
        runAgentCommandQueue, runExternalCommandQueue, terminateQueue, Log.Err, Log.Debug]
    · have ho : cmd.Action.Order ≠ "filechecker" ∧ cmd.Action.Order ≠ "shell"
          ∧ cmd.Action.Order ≠ "terminate" := by
        rcases hrej with ⟨e, he⟩ | h | h
        · rw [hv] at he; cases he
        · exact absurd h hs
        · exact h
      refine ⟨"parseCommands() -> OrderNotUnderstood", ?_⟩
      simp [parseCommands, parseCommandsBody, hdec, hkey, hv, hs, hid, ho.1, ho.2.1, ho.2.2,
        resultsQueue, runAgentCommandQueue, runExternalCommandQueue, terminateQueue,
        Log.Err, Log.Debug]

/-- C1 at the envelope of command 42 with order "noop". -/
theorem parseCommands_rejection_reported_witness :
    ∃ desc : String,
      (parseCommands (sampleEnv none 0 (Except.error "x")) sampleContext (sampleMessage "noop")).err
        = some desc
      ∧ resultsQueue
          (parseCommands (sampleEnv none 0 (Except.error "x")) sampleContext (sampleMessage "noop")).trace =
          [{ sampleCommand "noop" with
              Status := "failed",
              Results := Interface.log
                { CommandID := 42, ActionID := 7, Desc := desc, Sev := Severity.Err } }]
      ∧ desc = "parseCommands() -> OrderNotUnderstood" := by
  obtain ⟨desc, h1, h2, -, -, -, -, -, h8⟩ :=
    parseCommands_rejection_reported (sampleEnv none 0 (Except.error "x")) sampleContext
      (sampleMessage "noop") (sampleCommand "noop") { armored := "-----BEGIN PGP PUBLIC KEY BLOCK-----" }
      (by rfl) (by decide) (by rfl)
      (Or.inr (Or.inr ⟨by decide, by decide, by decide⟩))
  exact ⟨desc, h1, h2, h8 rfl (by decide)⟩

/-- C2: if `parseCommands` sends a command to `RunAgentCommand` or
`RunExternalCommand`, or a reason to `Terminate`, then the message decoded
without error, `Action.Validate` against the keyring built from `PUBLICPGPKEY`
returned no error for the decoded action, the current time is not before the
action's `ScheduledDate`, and every command sent is the decoded one. -/
theorem parseCommands_dispatch_authenticated (env : Env) (ctx : Context) (msg : String)
    (hpush : runAgentCommandQueue (parseCommands env ctx msg).trace ≠ []
      ∨ runExternalCommandQueue (parseCommands env ctx msg).trace ≠ []
      ∨ terminateQueue (parseCommands env ctx msg).trace ≠ []) :
    ∃ (cmd : Command) (keyring : Keyring),
      env.jsonUnmarshalCommand msg zeroCommand = (cmd, none)
      ∧ env.TransformArmoredPubKeyToKeyring env.PUBLICPGPKEY = Except.ok keyring
      ∧ env.Validate cmd.Action keyring = none
      ∧ ¬ env.Now < cmd.Action.ScheduledDate
      ∧ (∀ c ∈ runAgentCommandQueue (parseCommands env ctx msg).trace
            ++ runExternalCommandQueue (parseCommands env ctx msg).trace, c = cmd) := by
  rcases hdec : env.jsonUnmarshalCommand msg zeroCommand with ⟨cmd, _ | e⟩
  · cases hkey : env.TransformArmoredPubKeyToKeyring env.PUBLICPGPKEY with
    | error e =>
      exfalso
      by_cases hid : cmd.ID > 0 <;>
        simp [parseCommands, parseCommandsBody, hdec, hkey, hid, runAgentCommandQueue,
          runExternalCommandQueue, terminateQueue] at hpush
    | ok keyring =>
      cases hv : env.Validate cmd.Action keyring with
      | some e =>
        exfalso
        by_cases hid : cmd.ID > 0 <;>
          simp [parseCommands, parseCommandsBody, hdec, hkey, hv, hid, runAgentCommandQueue,
            runExternalCommandQueue, terminateQueue] at hpush
      | none =>
        by_cases hs : env.Now < cmd.Action.ScheduledDate
        · exfalso
          by_cases hid : cmd.ID > 0 <;>
            simp [parseCommands, parseCommandsBody, hdec, hkey, hv, hs, hid, runAgentCommandQueue,
              runExternalCommandQueue, terminateQueue] at hpush
        · refine ⟨cmd, keyring, rfl, rfl, hv, hs, ?_⟩
          by_cases h1 : cmd.Action.Order = "filechecker"
          · simp [parseCommands, parseCommandsBody, hdec, hkey, hv, hs, h1, runAgentCommandQueue,
              runExternalCommandQueue]
          · by_cases h2 : cmd.Action.Order = "shell"
            · simp [parseCommands, parseCommandsBody, hdec, hkey, hv, hs, h2, runAgentCommandQueue,
                runExternalCommandQueue]
            · by_cases h3 : cmd.Action.Order = "terminate"
              · simp [parseCommands, parseCommandsBody, hdec, hkey, hv, hs, h3,
                  runAgentCommandQueue, runExternalCommandQueue]
              · by_cases hid : cmd.ID > 0 <;>
                  simp [parseCommands, parseCommandsBody, hdec, hkey, hv, hs, h1, h2, h3, hid,
                    runAgentCommandQueue, runExternalCommandQueue]
  · exfalso
    by_cases hid : cmd.ID > 0 <;>
      simp [parseCommands, parseCommandsBody, hdec, hid, runAgentCommandQueue,
        runExternalCommandQueue, terminateQueue] at hpush

/-- C2 at the envelope of command 42 with order "filechecker", validated and
due. -/
theorem parseCommands_dispatch_authenticated_witness :
    ∃ (cmd : Command) (keyring : Keyring),
      (sampleEnv none 10 (Except.error "x")).jsonUnmarshalCommand (sampleMessage "filechecker")
          zeroCommand = (cmd, none)
      ∧ (sampleEnv none 10 (Except.error "x")).Validate cmd.Action keyring = none
      ∧ ¬ (sampleEnv none 10 (Except.error "x")).Now < cmd.Action.ScheduledDate := by
  obtain ⟨cmd, keyring, h1, -, h3, h4, -⟩ :=
    parseCommands_dispatch_authenticated (sampleEnv none 10 (Except.error "x")) sampleContext
      (sampleMessage "filechecker")
      (Or.inl (fun h => absurd h (List.cons_ne_nil (sampleCommand "filechecker") [])))
  exact ⟨cmd, keyring, h1, h3, h4⟩

/-- C3: a message that decodes, passes `Action.Validate` and is not scheduled
in the future is routed by `Action.Order`: "filechecker" sends the decoded
command, unchanged, to `RunAgentCommand` only; "shell" sends it, unchanged, to
`RunExternalCommand` only; "terminate" sends one reason to `Terminate` and no
command to any queue; in these three cases the returned error is nil. Any
other order is rejected with the error `parseCommands() -> OrderNotUnderstood`
and nothing is dispatched. -/
theorem parseCommands_routes_by_order (env : Env) (ctx : Context) (msg : String)
    (cmd : Command) (keyring : Keyring)
    (hdec : env.jsonUnmarshalCommand msg zeroCommand = (cmd, none))
    (hkey : env.TransformArmoredPubKeyToKeyring env.PUBLICPGPKEY = Except.ok keyring)
    (hv : env.Validate cmd.Action keyring = none)
    (hs : ¬ env.Now < cmd.Action.ScheduledDate) :
    (cmd.Action.Order = "filechecker" →
        runAgentCommandQueue (parseCommands env ctx msg).trace = [cmd]
        ∧ runExternalCommandQueue (parseCommands env ctx msg).trace = []
        ∧ terminateQueue (parseCommands env ctx msg).trace = []
        ∧ resultsQueue (parseCommands env ctx msg).trace = []
        ∧ (parseCommands env ctx msg).err = none)
    ∧ (cmd.Action.Order = "shell" →
        runAgentCommandQueue (parseCommands env ctx msg).trace = []
        ∧ runExternalCommandQueue (parseCommands env ctx msg).trace = [cmd]
        ∧ terminateQueue (parseCommands env ctx msg).trace = []
        ∧ resultsQueue (parseCommands env ctx msg).trace = []
        ∧ (parseCommands env ctx msg).err = none)
    ∧ (cmd.Action.Order = "terminate" →
        runAgentCommandQueue (parseCommands env ctx msg).trace = []
        ∧ runExternalCommandQueue (parseCommands env ctx msg).trace = []
        ∧ terminateQueue (parseCommands env ctx msg).trace
            = ["Terminate order received from scheduler"]
        ∧ resultsQueue (parseCommands env ctx msg).trace = []
        ∧ (parseCommands env ctx msg).err = none)
    ∧ (cmd.Action.Order ≠ "filechecker" → cmd.Action.Order ≠ "shell" →
        cmd.Action.Order ≠ "terminate" →
        runAgentCommandQueue (parseCommands env ctx msg).trace = []
        ∧ runExternalCommandQueue (parseCommands env ctx msg).trace = []
        ∧ terminateQueue (parseCommands env ctx msg).trace = []
        ∧ (parseCommands env ctx msg).err = some "parseCommands() -> OrderNotUnderstood") := by
  refine ⟨fun h1 => ?_, fun h2 => ?_, fun h3 => ?_, fun h1 h2 h3 => ?_⟩
  · simp [parseCommands, parseCommandsBody, hdec, hkey, hv, hs, h1, runAgentCommandQueue,
      runExternalCommandQueue, terminateQueue, resultsQueue]
  · simp [parseCommands, parseCommandsBody, hdec, hkey, hv, hs, h2, runAgentCommandQueue,
      runExternalCommandQueue, terminateQueue, resultsQueue]
  · simp [parseCommands, parseCommandsBody, hdec, hkey, hv, hs, h3, runAgentCommandQueue,
      runExternalCommandQueue, terminateQueue, resultsQueue]
  · by_cases hid : cmd.ID > 0
    · simp [parseCommands, parseCommandsBody, hdec, hkey, hv, hs, h1, h2, h3, hid,
        runAgentCommandQueue, runExternalCommandQueue, terminateQueue]
    · simp [parseCommands, parseCommandsBody, hdec, hkey, hv, hs, h1, h2, h3, hid,
        runAgentCommandQueue, runExternalCommandQueue, terminateQueue]

/-- C3 at the envelope of command 42 with order "shell". -/
theorem parseCommands_routes_by_order_witness :
    runAgentCommandQueue
        (parseCommands (sampleEnv none 10 (Except.error "x")) sampleContext (sampleMessage "shell")).trace
        = []
    ∧ runExternalCommandQueue
        (parseCommands (sampleEnv none 10 (Except.error "x")) sampleContext (sampleMessage "shell")).trace
        = [sampleCommand "shell"]
    ∧ (parseCommands (sampleEnv none 10 (Except.error "x")) sampleContext (sampleMessage "shell")).err
        = none :=
  have h := (parseCommands_routes_by_order (sampleEnv none 10 (Except.error "x")) sampleContext
    (sampleMessage "shell") (sampleCommand "shell")
    { armored := "-----BEGIN PGP PUBLIC KEY BLOCK-----" } rfl rfl rfl (by decide)).2.1 rfl
  ⟨h.1, h.2.1, h.2.2.2.2⟩

/-- C9, as stated, fails: the envelope `mistypedMessage` does not decode (the
decoder returns an error), yet the decoder has stored `ID = 5`, and
`parseCommands` sends that command to `Results` with status "failed". -/
theorem parseCommands_mistyped_envelope_replies :
    ((sampleEnv none 0 (Except.error "x")).jsonUnmarshalCommand mistypedMessage zeroCommand).2
        = some "json: cannot unmarshal number into Go value of type string"
    ∧ resultsQueue
        (parseCommands (sampleEnv none 0 (Except.error "x")) sampleContext mistypedMessage).trace =
        [{ zeroCommand with
            ID := 5,
            Status := "failed",
            Results := Interface.log
              { CommandID := 5, ActionID := 0,
                Desc := "parseCommands() -> json: cannot unmarshal number into Go value of type string",
                Sev := Severity.Err } }] :=
  ⟨rfl, rfl⟩

/-- C9, amended: when the body fails to decode, `parseCommands` sends nothing
to `RunAgentCommand`, `RunExternalCommand` or `Terminate` and returns a non-nil
error, which the validator goroutine logs at error severity. It sends nothing
to `Results` when the decoder left the command `ID` at 0; when the decoder left
an `ID > 0` it sends that command to `Results` with status "failed". -/
theorem parseCommands_decode_failure (env : Env) (ctx : Context) (msg : String)
    (cmd : Command) (e : String)
    (hdec : env.jsonUnmarshalCommand msg zeroCommand = (cmd, some e)) :
    (parseCommands env ctx msg).err = some ("parseCommands() -> " ++ e)
    ∧ runAgentCommandQueue (parseCommands env ctx msg).trace = []
    ∧ runExternalCommandQueue (parseCommands env ctx msg).trace = []
    ∧ terminateQueue (parseCommands env ctx msg).trace = []
    ∧ (cmd.ID = 0 → resultsQueue (parseCommands env ctx msg).trace = [])
    ∧ (cmd.ID > 0 → resultsQueue (parseCommands env ctx msg).trace =
        [{ cmd with
            Status := "failed",
            Results := Interface.log
              { CommandID := cmd.ID, ActionID := cmd.Action.ID,
                Desc := "parseCommands() -> " ++ e, Sev := Severity.Err } }])
    ∧ Event.log { Desc := "parseCommands() -> " ++ e, Sev := Severity.Err }
        ∈ validatorStep env ctx msg := by
  by_cases hid : cmd.ID > 0
  · have h0 : cmd.ID ≠ 0 := Nat.pos_iff_ne_zero.mp hid
    simp [validatorStep, parseCommands, parseCommandsBody, hdec, hid, h0, resultsQueue,
      runAgentCommandQueue, runExternalCommandQueue, terminateQueue, Log.Err, Log.Debug]
  · have h0 : cmd.ID = 0 := by omega
    simp [validatorStep, parseCommands, parseCommandsBody, hdec, h0, resultsQueue,
      runAgentCommandQueue, runExternalCommandQueue, terminateQueue, Log.Err, Log.Debug]

/-- C9, amended, at a body that is not JSON. -/
theorem parseCommands_decode_failure_witness :
    (parseCommands (sampleEnv none 0 (Except.error "x")) sampleContext "garbage").err
        = some "parseCommands() -> unexpected end of JSON input"
    ∧ resultsQueue (parseCommands (sampleEnv none 0 (Except.error "x")) sampleContext "garbage").trace
        = [] :=
  have h := parseCommands_decode_failure (sampleEnv none 0 (Except.error "x")) sampleContext
    "garbage" zeroCommand "unexpected end of JSON input" rfl
  ⟨h.1, h.2.2.2.2.1 rfl⟩

/-! ## Module supervisor: `runAgentModule` -/

/-- C7: when the child exits with status 0 before the timeout and its captured
standard output decodes, `runAgentModule` sends exactly one command to
`Results`: the input command with `Status = "succeeded"` and `Results` the
decoded value, `ID` and `Action` unchanged; the returned error is nil. -/
theorem runAgentModule_success (env : Env) (ctx : Context) (migCmd : Command)
    (tmpargs out : String) (v : JsonValue)
    (hargs : env.jsonMarshalArguments migCmd.Action.Arguments = Except.ok tmpargs)
    (hrun : env.Start [env.osArgs0, "-m", env.ToLower migCmd.Action.Order, tmpargs]
      = Except.ok (SelectOutcome.exited none out))
    (hout : env.jsonUnmarshalResults out = Except.ok v) :
    resultsQueue (runAgentModule env ctx migCmd).trace =
        [{ migCmd with Status := "succeeded", Results := Interface.value v }]
    ∧ (∀ c ∈ resultsQueue (runAgentModule env ctx migCmd).trace,
        c.ID = migCmd.ID ∧ c.Action = migCmd.Action)
    ∧ (runAgentModule env ctx migCmd).err = none := by
  simp [runAgentModule, runAgentModuleBody, hargs, hrun, hout, resultsQueue]

/-- C7 at command 42 whose child prints an empty JSON object. -/
theorem runAgentModule_success_witness :
    resultsQueue
        (runAgentModule
          (sampleEnv none 10 (Except.ok (SelectOutcome.exited none "\x7b\x7d")))
          sampleContext (sampleCommand "filechecker")).trace =
        [{ sampleCommand "filechecker" with
            Status := "succeeded", Results := Interface.value (JsonValue.object []) }]
    ∧ (runAgentModule
          (sampleEnv none 10 (Except.ok (SelectOutcome.exited none "\x7b\x7d")))
          sampleContext (sampleCommand "filechecker")).err = none :=
  have h := runAgentModule_success
    (sampleEnv none 10 (Except.ok (SelectOutcome.exited none "\x7b\x7d")))
    sampleContext (sampleCommand "filechecker") "null" "\x7b\x7d" (JsonValue.object [])
    rfl rfl rfl
  ⟨h.1, h.2.2⟩

/-- C8: when the timeout fires before the child is seen to exit,
`runAgentModule` sends to `Results` exactly one command, the input with
`Status = "timeout"` (`ID`, `Action` and `Results` unchanged), and that send
comes directly before the kill call, the first one made. The child's exit is
awaited on every such run: the goroutine that calls `cmd.Wait()` was started
before the send, and when the kill call returns nil the next step of
`runAgentModule` is the receive of the child's status from `waiter`. Whatever
status the child reports, and whatever the kill call returns, no further
command is sent to `Results`; the returned error is nil unless the kill call
returns an error, which is then returned. -/
theorem runAgentModule_timeout (env : Env) (ctx : Context) (migCmd : Command)
    (tmpargs : String) (killErr waitErr : Option String)
    (hargs : env.jsonMarshalArguments migCmd.Action.Arguments = Except.ok tmpargs)
    (hrun : env.Start [env.osArgs0, "-m", env.ToLower migCmd.Action.Order, tmpargs]
      = Except.ok (SelectOutcome.timeout killErr waitErr)) :
    resultsQueue (runAgentModule env ctx migCmd).trace = [{ migCmd with Status := "timeout" }]
    ∧ (∃ before after : List Event,
        (runAgentModule env ctx migCmd).trace =
          before ++ Event.results { migCmd with Status := "timeout" } :: Event.kill :: after
        ∧ Event.kill ∉ before ∧ Event.goWait ∈ before
        ∧ resultsQueue before = [] ∧ resultsQueue after = [])
    ∧ (killErr = none →
        (runAgentModule env ctx migCmd).err = none
        ∧ ∃ before after : List Event,
            (runAgentModule env ctx migCmd).trace =
              before ++ Event.kill :: Event.waiter waitErr :: after)
    ∧ (∀ e, killErr = some e →
        (runAgentModule env ctx migCmd).err = some ("runCommand() -> " ++ e)) := by
  cases killErr with
  | none =>
    simp only [runAgentModule, runAgentModuleBody, hargs, hrun]
    refine ⟨by simp [resultsQueue], ⟨[_, _, _, _], [_, _], rfl, by simp, by simp,
      by simp [resultsQueue], by simp [resultsQueue]⟩, ?_, ?_⟩
    · intro _
      exact ⟨by simp, [_, _, _, _, _], [_], rfl⟩
    · intro e h
      cases h
  | some e =>
    simp only [runAgentModule, runAgentModuleBody, hargs, hrun]
    refine ⟨by simp [resultsQueue], ⟨[_, _, _, _], [_], rfl, by simp, by simp,
      by simp [resultsQueue], by simp [resultsQueue]⟩, ?_, ?_⟩
    · intro h
      cases h
    · intro e2 h
      cases h
      simp

/-- C8 at command 42 whose child is killed and reports
`signal: killed`. -/
theorem runAgentModule_timeout_witness :
    resultsQueue
        (runAgentModule
          (sampleEnv none 10 (Except.ok (SelectOutcome.timeout none (some "signal: killed"))))
          sampleContext (sampleCommand "filechecker")).trace =
        [{ sampleCommand "filechecker" with Status := "timeout" }]
    ∧ (runAgentModule
          (sampleEnv none 10 (Except.ok (SelectOutcome.timeout none (some "signal: killed"))))
          sampleContext (sampleCommand "filechecker")).err = none :=
  have h := runAgentModule_timeout
    (sampleEnv none 10 (Except.ok (SelectOutcome.timeout none (some "signal: killed"))))
    sampleContext (sampleCommand "filechecker") "null" none (some "signal: killed") rfl rfl
  ⟨h.1, (h.2.2.1 rfl).1⟩

/-- C5 fails on the code: when the child cannot be started, `runAgentModule`
panics before any send to `Results`, and its deferred function only sets the
returned error. No command is sent to `Results`. -/
theorem runAgentModule_start_failure_sends_nothing :
    resultsQueue
        (runAgentModule
          (sampleEnv none 10 (Except.error "fork/exec /sbin/mig-agent: no such file or directory"))
          sampleContext (sampleCommand "filechecker")).trace = []
    ∧ (runAgentModule
          (sampleEnv none 10 (Except.error "fork/exec /sbin/mig-agent: no such file or directory"))
          sampleContext (sampleCommand "filechecker")).err
        = some "runCommand() -> fork/exec /sbin/mig-agent: no such file or directory" :=
  ⟨rfl, rfl⟩

/-- C6 fails on the code: when the child exits with status 0 and its standard
output (here empty) does not decode, `runAgentModule` panics with the decoding
error before any send to `Results`; no command with status "failed" is sent. -/
theorem runAgentModule_undecodable_output_sends_nothing :
    (sampleEnv none 10 (Except.ok (SelectOutcome.exited none ""))).jsonUnmarshalResults ""
        = Except.error "unexpected end of JSON input"
    ∧ resultsQueue
        (runAgentModule (sampleEnv none 10 (Except.ok (SelectOutcome.exited none "")))
          sampleContext (sampleCommand "filechecker")).trace = []
    ∧ (runAgentModule (sampleEnv none 10 (Except.ok (SelectOutcome.exited none "")))
          sampleContext (sampleCommand "filechecker")).err
        = some "runCommand() -> unexpected end of JSON input" :=
  ⟨rfl, rfl, rfl⟩

/-! ## A message through the validator and the module supervisor -/

/-- The `Results` sends of a concatenated trace. -/
theorem resultsQueue_append (a b : List Event) :
    resultsQueue (a ++ b) = resultsQueue a ++ resultsQueue b := by
  simp [resultsQueue, List.filterMap_append]

/-- The `Results` sends of traces produced command by command. -/
theorem resultsQueue_flatMap (l : List Command) (f : Command → List Event) :
    resultsQueue (l.flatMap f) = l.flatMap (fun c => resultsQueue (f c)) := by
  induction l with
  | nil => rfl
  | cons c l ih => simp [List.flatMap_cons, resultsQueue_append, ih]

/-- The log record the validator goroutine adds is not a `Results` send. -/
theorem resultsQueue_validatorStep (env : Env) (ctx : Context) (msg : String) :
    resultsQueue (validatorStep env ctx msg) = resultsQueue (parseCommands env ctx msg).trace := by
  cases h : (parseCommands env ctx msg).err <;>
    simp [validatorStep, h, resultsQueue, List.filterMap_append]

/-- The log record the validator goroutine adds is not a `RunAgentCommand` send. -/
theorem runAgentCommandQueue_validatorStep (env : Env) (ctx : Context) (msg : String) :
    runAgentCommandQueue (validatorStep env ctx msg)
      = runAgentCommandQueue (parseCommands env ctx msg).trace := by
  cases h : (parseCommands env ctx msg).err <;>
    simp [validatorStep, h, runAgentCommandQueue, List.filterMap_append]

/-- The log record the validator goroutine adds is not a `Terminate` send. -/
theorem terminateQueue_validatorStep (env : Env) (ctx : Context) (msg : String) :
    terminateQueue (validatorStep env ctx msg)
      = terminateQueue (parseCommands env ctx msg).trace := by
  cases h : (parseCommands env ctx msg).err <;>
    simp [validatorStep, h, terminateQueue, List.filterMap_append]

/-- The log record the validator goroutine adds is not a `RunExternalCommand`
send. -/
theorem runExternalCommandQueue_validatorStep (env : Env) (ctx : Context) (msg : String) :
    runExternalCommandQueue (validatorStep env ctx msg)
      = runExternalCommandQueue (parseCommands env ctx msg).trace := by
  cases h : (parseCommands env ctx msg).err <;>
    simp [validatorStep, h, runExternalCommandQueue, List.filterMap_append]

/-- A message for which nothing is queued on `RunAgentCommand` goes through
the validator goroutine only. -/
theorem processMessage_without_module_command (env : Env) (ctx : Context) (msg : String)
    (hq : runAgentCommandQueue (parseCommands env ctx msg).trace = []) :
    processMessage env ctx msg = validatorStep env ctx msg := by
  simp [processMessage, runAgentCommandQueue_validatorStep, hq]

/-- The log record the module goroutine adds is not a `Results` send. -/
theorem resultsQueue_supervisorStep (env : Env) (ctx : Context) (cmd : Command) :
    resultsQueue (supervisorStep env ctx cmd) = resultsQueue (runAgentModule env ctx cmd).trace := by
  cases h : (runAgentModule env ctx cmd).err <;>
    simp [supervisorStep, h, resultsQueue, List.filterMap_append]

/-- The commands a message causes to be sent to `Results`: those sent by
`parseCommands`, then those sent by `runAgentModule` for each command queued on
`RunAgentCommand`. -/
theorem resultsQueue_processMessage (env : Env) (ctx : Context) (msg : String) :
    resultsQueue (processMessage env ctx msg) =
      resultsQueue (parseCommands env ctx msg).trace
        ++ (runAgentCommandQueue (parseCommands env ctx msg).trace).flatMap
            (fun c => resultsQueue (runAgentModule env ctx c).trace) := by
  simp [processMessage, resultsQueue_append, resultsQueue_flatMap, resultsQueue_validatorStep,
    runAgentCommandQueue_validatorStep, resultsQueue_supervisorStep]

/-- The four ways `parseCommands` ends on a message that decodes to a command
with `ID > 0`. -/
theorem parseCommands_decoded_cases (env : Env) (ctx : Context) (msg : String) (cmd : Command)
    (hdec : env.jsonUnmarshalCommand msg zeroCommand = (cmd, none)) (hid : cmd.ID > 0) :
    ((parseCommands env ctx msg).err ≠ none
      ∧ runAgentCommandQueue (parseCommands env ctx msg).trace = []
      ∧ ∃ c, resultsQueue (parseCommands env ctx msg).trace = [c] ∧ c.ID = cmd.ID
          ∧ c.Status = "failed")
    ∨ ((parseCommands env ctx msg).err = none ∧ cmd.Action.Order = "filechecker"
      ∧ runAgentCommandQueue (parseCommands env ctx msg).trace = [cmd]
      ∧ resultsQueue (parseCommands env ctx msg).trace = [])
    ∨ ((parseCommands env ctx msg).err = none ∧ cmd.Action.Order = "shell"
      ∧ runAgentCommandQueue (parseCommands env ctx msg).trace = []
      ∧ runExternalCommandQueue (parseCommands env ctx msg).trace = [cmd]
      ∧ resultsQueue (parseCommands env ctx msg).trace = [])
    ∨ ((parseCommands env ctx msg).err = none ∧ cmd.Action.Order = "terminate"
      ∧ runAgentCommandQueue (parseCommands env ctx msg).trace = []
      ∧ terminateQueue (parseCommands env ctx msg).trace
          = ["Terminate order received from scheduler"]
      ∧ resultsQueue (parseCommands env ctx msg).trace = []) := by
  cases hkey : env.TransformArmoredPubKeyToKeyring env.PUBLICPGPKEY with
  | error e =>
    left
    simp [parseCommands, parseCommandsBody, hdec, hkey, hid, runAgentCommandQueue, resultsQueue]
  | ok keyring =>
    cases hv : env.Validate cmd.Action keyring with
    | some e =>
      left
      simp [parseCommands, parseCommandsBody, hdec, hkey, hv, hid, runAgentCommandQueue,
        resultsQueue]
    | none =>
      by_cases hs : env.Now < cmd.Action.ScheduledDate
      · left
        simp [parseCommands, parseCommandsBody, hdec, hkey, hv, hs, hid, runAgentCommandQueue,
          resultsQueue]
      · by_cases h1 : cmd.Action.Order = "filechecker"
        · right; left
          simp [parseCommands, parseCommandsBody, hdec, hkey, hv, hs, h1, runAgentCommandQueue,
            resultsQueue]
        · by_cases h2 : cmd.Action.Order = "shell"
          · right; right; left
            simp [parseCommands, parseCommandsBody, hdec, hkey, hv, hs, h2,
              runAgentCommandQueue, runExternalCommandQueue, resultsQueue]
          · by_cases h3 : cmd.Action.Order = "terminate"
            · right; right; right
              simp [parseCommands, parseCommandsBody, hdec, hkey, hv, hs, h3,
                runAgentCommandQueue, terminateQueue, resultsQueue]
            · left
              simp [parseCommands, parseCommandsBody, hdec, hkey, hv, hs, h1, h2, h3, hid,
                runAgentCommandQueue, resultsQueue]

/-- When the arguments serialize, the child starts, and a child that exits
with status 0 prints output that decodes, `runAgentModule` sends exactly one
command to `Results`, with the input's `ID` and a terminal status. -/
theorem runAgentModule_reports_once (env : Env) (ctx : Context) (migCmd : Command)
    (tmpargs : String) (sel : SelectOutcome)
    (hargs : env.jsonMarshalArguments migCmd.Action.Arguments = Except.ok tmpargs)
    (hrun : env.Start [env.osArgs0, "-m", env.ToLower migCmd.Action.Order, tmpargs]
      = Except.ok sel)
    (hsel : ∀ out, sel = SelectOutcome.exited none out →
      ∃ v, env.jsonUnmarshalResults out = Except.ok v) :
    ∃ c, resultsQueue (runAgentModule env ctx migCmd).trace = [c] ∧ c.ID = migCmd.ID
      ∧ (c.Status = "failed" ∨ c.Status = "timeout" ∨ c.Status = "succeeded") := by
  cases sel with
  | timeout killErr waitErr =>
    cases killErr <;>
      simp [runAgentModule, runAgentModuleBody, hargs, hrun, resultsQueue]
  | exited waitErr out =>
    cases waitErr with
    | some e => simp [runAgentModule, runAgentModuleBody, hargs, hrun, resultsQueue]
    | none =>
      obtain ⟨v, hv⟩ := hsel out rfl
      simp [runAgentModule, runAgentModuleBody, hargs, hrun, hv, resultsQueue]

/-- C4, as stated, fails: the envelopes of command 42 with order "terminate"
and with order "shell" decode to a command with `ID > 0`, are validated and
due, and no command is sent to `Results`. The first yields one reason on
`Terminate`, the second the command on `RunExternalCommand`. -/
theorem processMessage_terminate_no_result :
    (sampleEnv none 10 (Except.error "x")).jsonUnmarshalCommand (sampleMessage "terminate")
        zeroCommand = (sampleCommand "terminate", none)
    ∧ (sampleCommand "terminate").ID = 42
    ∧ resultsQueue
        (processMessage (sampleEnv none 10 (Except.error "x")) sampleContext
          (sampleMessage "terminate")) = []
    ∧ terminateQueue
        (processMessage (sampleEnv none 10 (Except.error "x")) sampleContext
          (sampleMessage "terminate")) = ["Terminate order received from scheduler"]
    ∧ (sampleEnv none 10 (Except.error "x")).jsonUnmarshalCommand (sampleMessage "shell")
        zeroCommand = (sampleCommand "shell", none)
    ∧ (sampleCommand "shell").ID = 42
    ∧ resultsQueue
        (processMessage (sampleEnv none 10 (Except.error "x")) sampleContext
          (sampleMessage "shell")) = []
    ∧ runExternalCommandQueue
        (processMessage (sampleEnv none 10 (Except.error "x")) sampleContext
          (sampleMessage "shell")) = [sampleCommand "shell"] :=
  ⟨rfl, rfl, rfl, rfl, rfl, rfl, rfl, rfl⟩

/-- C4, amended: for a message that decodes to a command with `ID > 0`:
if `parseCommands` rejects it, exactly one command is sent to `Results`, with
that `ID` and status "failed"; if it is accepted with order "filechecker" and
the supervisor serializes the arguments, starts the child, and then sees the
timeout, a nonzero exit, or a zero exit with output that decodes, exactly one
command is sent to `Results`, with that `ID` and a status among "failed",
"timeout", "succeeded"; if it is accepted with order "terminate", one reason
is sent to `Terminate` and no command is sent to `Results`; if it is accepted
with order "shell", the command is sent to `RunExternalCommand` and no command
is sent to `Results`. -/
theorem processMessage_terminal_result (env : Env) (ctx : Context) (msg : String)
    (cmd : Command)
    (hdec : env.jsonUnmarshalCommand msg zeroCommand = (cmd, none)) (hid : cmd.ID > 0) :
    ((parseCommands env ctx msg).err ≠ none →
        ∃ c, resultsQueue (processMessage env ctx msg) = [c] ∧ c.ID = cmd.ID
          ∧ c.Status = "failed")
    ∧ ((parseCommands env ctx msg).err = none → cmd.Action.Order = "filechecker" →
        ∀ (tmpargs : String) (sel : SelectOutcome),
          env.jsonMarshalArguments cmd.Action.Arguments = Except.ok tmpargs →
          env.Start [env.osArgs0, "-m", env.ToLower cmd.Action.Order, tmpargs] = Except.ok sel →
          (∀ out, sel = SelectOutcome.exited none out →
            ∃ v, env.jsonUnmarshalResults out = Except.ok v) →
          ∃ c, resultsQueue (processMessage env ctx msg) = [c] ∧ c.ID = cmd.ID
            ∧ (c.Status = "failed" ∨ c.Status = "timeout" ∨ c.Status = "succeeded"))
    ∧ ((parseCommands env ctx msg).err = none → cmd.Action.Order = "terminate" →
        terminateQueue (processMessage env ctx msg) = ["Terminate order received from scheduler"]
        ∧ resultsQueue (processMessage env ctx msg) = [])
    ∧ ((parseCommands env ctx msg).err = none → cmd.Action.Order = "shell" →
        runExternalCommandQueue (processMessage env ctx msg) = [cmd]
        ∧ resultsQueue (processMessage env ctx msg) = []) := by
  have hcases := parseCommands_decoded_cases env ctx msg cmd hdec hid
  refine ⟨fun herr => ?_, fun herr ho tmpargs sel hargs hrun hsel => ?_, fun herr ho => ?_,
    fun herr ho => ?_⟩
  · rcases hcases with ⟨-, hq, c, hr, hc⟩ | ⟨h, -⟩ | ⟨h, -⟩ | ⟨h, -⟩
    · exact ⟨c, by simp [resultsQueue_processMessage, hq, hr], hc⟩
    · exact absurd h herr
    · exact absurd h herr
    · exact absurd h herr
  · rcases hcases with ⟨h, -⟩ | ⟨-, -, hq, hr⟩ | ⟨-, h, -⟩ | ⟨-, h, -⟩
    · exact absurd herr h
    · obtain ⟨c, hc, hrest⟩ := runAgentModule_reports_once env ctx cmd tmpargs sel hargs hrun hsel
      exact ⟨c, by simp [resultsQueue_processMessage, hq, hr, hc], hrest⟩
    · rw [ho] at h; exact absurd h (by decide)
    · rw [ho] at h; exact absurd h (by decide)
  · rcases hcases with ⟨h, -⟩ | ⟨-, h, -⟩ | ⟨-, h, -⟩ | ⟨-, -, hq, ht, hr⟩
    · exact absurd herr h
    · rw [ho] at h; exact absurd h (by decide)
    · rw [ho] at h; exact absurd h (by decide)
    · rw [processMessage_without_module_command env ctx msg hq, terminateQueue_validatorStep,
        resultsQueue_validatorStep]
      exact ⟨ht, hr⟩
  · rcases hcases with ⟨h, -⟩ | ⟨-, h, -⟩ | ⟨-, -, hq, hx, hr⟩ | ⟨-, h, -⟩
    · exact absurd herr h
    · rw [ho] at h; exact absurd h (by decide)
    · rw [processMessage_without_module_command env ctx msg hq,
        runExternalCommandQueue_validatorStep, resultsQueue_validatorStep]
      exact ⟨hx, hr⟩
    · rw [ho] at h; exact absurd h (by decide)

/-- C4, amended, at the envelope of command 42 with order "filechecker" whose
child prints an empty JSON object. -/
theorem processMessage_terminal_result_witness :
    ∃ c,
      resultsQueue
        (processMessage (sampleEnv none 10 (Except.ok (SelectOutcome.exited none "\x7b\x7d")))
          sampleContext (sampleMessage "filechecker")) = [c]
      ∧ c.ID = 42
      ∧ (c.Status = "failed" ∨ c.Status = "timeout" ∨ c.Status = "succeeded") :=
  (processMessage_terminal_result
    (sampleEnv none 10 (Except.ok (SelectOutcome.exited none "\x7b\x7d")))
    sampleContext (sampleMessage "filechecker") (sampleCommand "filechecker") rfl
    (by decide)).2.1 rfl rfl "null" (SelectOutcome.exited none "\x7b\x7d") rfl rfl
    (fun out h => by
      cases h
      exact ⟨JsonValue.object [], rfl⟩)

/-! ## Result publisher: `sendResults` -/

/-- C10: `sendResults` sets `AgentQueueLoc` to the agent's `QueueLoc`, leaves
every other field unchanged, and publishes the JSON serialization of that
command exactly once: one call on exchange "mig", routing key "mig.sched."
followed by the `QueueLoc`, mandatory true, immediate false, persistent
delivery mode. A command taken from `Results` is made of `encoding/json`
output and a `mig.Log` record, which `json.Marshal` serializes; `body` is that
serialization. The returned error is non-nil exactly when serialization or the
broker call fails; a serialization error is returned before any call; there is
never a second call. -/
theorem sendResults_publishes_once (env : Env) (ctx : Context) (result : Command) :
    (∀ body : String,
        env.jsonMarshalCommand { result with AgentQueueLoc := ctx.Agent.QueueLoc } = Except.ok body →
        publishCalls (sendResults env ctx result).trace =
          [("mig", "mig.sched." ++ ctx.Agent.QueueLoc, true, false,
            { DeliveryMode := amqp.Persistent, Timestamp := env.Now, ContentType := "text/plain",
              Body := body })]
        ∧ ((sendResults env ctx result).err ≠ none ↔
            env.Publish "mig" ("mig.sched." ++ ctx.Agent.QueueLoc) true false
              { DeliveryMode := amqp.Persistent, Timestamp := env.Now,
                ContentType := "text/plain", Body := body } ≠ none))
    ∧ (∀ e : String,
        env.jsonMarshalCommand { result with AgentQueueLoc := ctx.Agent.QueueLoc } = Except.error e →
        publishCalls (sendResults env ctx result).trace = []
        ∧ (sendResults env ctx result).err = some ("sendResults() -> " ++ e))
    ∧ (publishCalls (sendResults env ctx result).trace).length ≤ 1
    ∧ ((sendResults env ctx result).err ≠ none ↔
        ((∃ e, env.jsonMarshalCommand { result with AgentQueueLoc := ctx.Agent.QueueLoc }
            = Except.error e)
        ∨ ∃ body,
            env.jsonMarshalCommand { result with AgentQueueLoc := ctx.Agent.QueueLoc }
              = Except.ok body
            ∧ env.Publish "mig" ("mig.sched." ++ ctx.Agent.QueueLoc) true false
                { DeliveryMode := amqp.Persistent, Timestamp := env.Now,
                  ContentType := "text/plain", Body := body } ≠ none)) := by
  refine ⟨fun body hbody => ?_, fun e he => ?_, ?_, ?_⟩
  · cases hp : env.Publish "mig" ("mig.sched." ++ ctx.Agent.QueueLoc) true false
        { DeliveryMode := amqp.Persistent, Timestamp := env.Now, ContentType := "text/plain",
          Body := body } <;>
      simp [sendResults, publish, hbody, hp, publishCalls]
  · simp [sendResults, he, publishCalls]
  · cases hm : env.jsonMarshalCommand { result with AgentQueueLoc := ctx.Agent.QueueLoc } with
    | error e => simp [sendResults, hm, publishCalls]
    | ok body =>
      cases hp : env.Publish "mig" ("mig.sched." ++ ctx.Agent.QueueLoc) true false
          { DeliveryMode := amqp.Persistent, Timestamp := env.Now, ContentType := "text/plain",
            Body := body } <;>
        simp [sendResults, publish, hm, hp, publishCalls]
  · cases hm : env.jsonMarshalCommand { result with AgentQueueLoc := ctx.Agent.QueueLoc } with
    | error e => simp [sendResults, hm]
    | ok body =>
      cases hp : env.Publish "mig" ("mig.sched." ++ ctx.Agent.QueueLoc) true false
          { DeliveryMode := amqp.Persistent, Timestamp := env.Now, ContentType := "text/plain",
            Body := body } <;>
        simp [sendResults, publish, hm, hp]

/-- C10 at a succeeded command 42 published by the agent bound to
`linux.host1`. -/
theorem sendResults_publishes_once_witness :
    publishCalls
        (sendResults (sampleEnv none 10 (Except.error "x")) sampleContext
          { sampleCommand "filechecker" with Status := "succeeded" }).trace =
      [("mig", "mig.sched.linux.host1", true, false,
        { DeliveryMode := 2, Timestamp := 10, ContentType := "text/plain",
          Body := "\x7b\"Status\":\"succeeded\",\"AgentQueueLoc\":\"linux.host1\"\x7d" })] :=
  ((sendResults_publishes_once (sampleEnv none 10 (Except.error "x")) sampleContext
    { sampleCommand "filechecker" with Status := "succeeded" }).1
    "\x7b\"Status\":\"succeeded\",\"AgentQueueLoc\":\"linux.host1\"\x7d" rfl).1

end Mig
